import Mathlib

/-!
Verification of the project-traversal and ignore-pattern engine of
`auto_readme.py` (class `AutoReadme`), via a shallow embedding.

Paths are modelled as `String`s; the string manipulation performed by the
Python code (`str.split('/')`, `str.strip`, `str.lstrip`, `str.endswith`,
`str.lower`, `os.path.relpath`, `fnmatch.fnmatch`, ...) is embedded as
executable functions on `List Char` below.  Directory trees are modelled by
the inductive type `FSTree`; the directory-listing order of the operating
system is modelled as the order of the children list.
-/

/-- A single path segment test: Python `part.startswith('.')`. -/
def startsDot (part : List Char) : Bool :=
  part.head? = some '.'

/-- Python `s.split('/')`: split on every `'/'`, keeping empty segments;
`"".split('/') = ['']`. -/
def splitSlash : List Char → List (List Char)
  | [] => [[]]
  | c :: cs =>
    if c = '/' then [] :: splitSlash cs
    else
      match splitSlash cs with
      | s :: rest => (c :: s) :: rest
      | [] => [[c]]

/-- `'/'.join`, on segment lists. -/
def joinSlash : List (List Char) → List Char
  | [] => []
  | [s] => s
  | s :: rest => s ++ '/' :: joinSlash rest

/-- Is `p` a (contiguous) prefix of `l`? -/
def isPrefSeg : List Char → List Char → Bool
  | [], _ => true
  | _ :: _, [] => false
  | a :: asx, b :: bs => a = b && isPrefSeg asx bs

/-- Python `needle in hay` on strings: contiguous-substring test. -/
def containsSeg (needle : List Char) : List Char → Bool
  | [] => isPrefSeg needle []
  | c :: rest => isPrefSeg needle (c :: rest) || containsSeg needle rest

/-- Python `s.endswith(suffix)`. -/
def isSuffSeg (suffix l : List Char) : Bool :=
  isPrefSeg suffix.reverse l.reverse

/-- ASCII whitespace stripped by Python `str.strip()`. -/
def isPySpace (c : Char) : Bool :=
  c = ' ' || c = '\t' || c = '\n' || c = '\r' || c = '\x0b' || c = '\x0c'

/-- Python `s.strip()` (ASCII whitespace). -/
def pyStrip (l : List Char) : List Char :=
  ((l.dropWhile isPySpace).reverse.dropWhile isPySpace).reverse

/-- ASCII lowering, as Python `str.lower()` acts on ASCII text. -/
def lowerChar (c : Char) : Char :=
  if c.isUpper then Char.ofNat (c.toNat + 32) else c

/-- Python `s.lower()` (ASCII). -/
def lowerStr (s : String) : String :=
  ⟨s.data.map lowerChar⟩

/-- Comparison of path-name strings, as Python compares strings in
`sorted`: lexicographic on code points. -/
def charListLe : List Char → List Char → Bool
  | [], _ => true
  | _ :: _, [] => false
  | a :: asx, b :: bs =>
    if a.val < b.val then true
    else if b.val < a.val then false
    else charListLe asx bs

/-! ### `fnmatch.fnmatch`

`fnmatch.fnmatch(name, pattern)` on POSIX (`normcase` is the identity)
translates the pattern — `*` matches any character sequence including `/`,
`?` any single character, `[...]`/`[!...]` character classes where a `]`
directly after the opening (or after `!`) is a literal member and an
unterminated `[` is a literal `[` — and then requires a full match of
`name`. -/

/-- One token of a translated glob pattern. -/
inductive GlobTok where
  | lit (c : Char)
  | star
  | qmark
  | cls (neg : Bool) (set : List Char)
deriving DecidableEq

/-- Scan a character class body up to the closing `]`; `none` when the
class is unterminated. -/
def scanClass : List Char → Option (List Char × List Char)
  | [] => none
  | c :: t =>
    if c = ']' then some ([], t)
    else (scanClass t).map (fun p => (c :: p.1, p.2))

/-- Strip the leading negation marker `!` of a character class. -/
def stripNeg : List Char → Bool × List Char
  | '!' :: t => (true, t)
  | t => (false, t)

/-- Strip a literal `]` standing first in a character class body. -/
def stripLitBr : List Char → Bool × List Char
  | ']' :: t => (true, t)
  | t => (false, t)

/-- Parse a character class following an opening `[`; `none` means the `[`
is to be taken literally (unterminated class). -/
def parseClass (l : List Char) : Option (Bool × List Char × List Char) :=
  let n := stripNeg l
  let b := stripLitBr n.2
  (scanClass b.2).map (fun p => (n.1, (if b.1 then ']' :: p.1 else p.1), p.2))

/-- Translate a glob pattern into tokens, as `fnmatch.translate` does.
The fuel only bounds the recursion (each token consumes at least one
pattern character, so `l.length` units always suffice — see
`tokenizeGlob`); it keeps the definition structurally recursive and hence
evaluable inside the kernel. -/
def tokenizeGlobF : Nat → List Char → List GlobTok
  | 0, _ => []
  | _ + 1, [] => []
  | f + 1, '*' :: r => .star :: tokenizeGlobF f r
  | f + 1, '?' :: r => .qmark :: tokenizeGlobF f r
  | f + 1, '[' :: r =>
    (match parseClass r with
     | some (neg, set, rest) => .cls neg set :: tokenizeGlobF f rest
     | none => .lit '[' :: tokenizeGlobF f r)
  | f + 1, c :: r => .lit c :: tokenizeGlobF f r

/-- The token list of a glob pattern. -/
def tokenizeGlob (l : List Char) : List GlobTok :=
  tokenizeGlobF l.length l

/-- Membership of a character in a class body, with `a-b` ranges. -/
def classHas : List Char → Char → Bool
  | a :: '-' :: b :: rest, c =>
    if rest = [] ∧ b = ']' then
      -- unreachable in parsed classes (the body never contains `]`)
      (a = c || '-' = c || b = c)
    else
      (a.val ≤ c.val && c.val ≤ b.val) || classHas rest c
  | a :: rest, c => a = c || classHas rest c
  | [], _ => false

/-- All suffixes of a character list, longest first (including itself and
`[]`). -/
def listSuffixes : List Char → List (List Char)
  | [] => [[]]
  | c :: cs => (c :: cs) :: listSuffixes cs

/-- Match translated glob tokens against a character list (full match);
`*` consumes an arbitrary prefix, i.e. some suffix must match the
remaining tokens. -/
def matchToks : List GlobTok → List Char → Bool
  | [], s => s.isEmpty
  | .star :: ts, s => (listSuffixes s).any (fun suf => matchToks ts suf)
  | .qmark :: ts, s =>
    match s with
    | [] => false
    | _ :: cs => matchToks ts cs
  | .cls neg set :: ts, s =>
    match s with
    | [] => false
    | c :: cs => (classHas set c != neg) && matchToks ts cs
  | .lit p :: ts, s =>
    match s with
    | [] => false
    | c :: cs => p = c && matchToks ts cs

/-- `fnmatch.fnmatch(name, pattern)` (POSIX `normcase` is the identity). -/
def fnmatch (name pattern : String) : Bool :=
  matchToks (tokenizeGlob pattern.data) name.data

theorem nil_mem_listSuffixes (s : List Char) : [] ∈ listSuffixes s := by
  induction s with
  | nil => simp [listSuffixes]
  | cons c cs ih => exact List.mem_cons_of_mem _ ih

theorem matchToks_star_any (s : List Char) : matchToks [GlobTok.star] s = true := by
  rw [matchToks, List.any_eq_true]
  exact ⟨[], nil_mem_listSuffixes s, by simp [matchToks]⟩

/-! ### `os.path.relpath`

`os.path.relpath(path, start)` on POSIX normalizes both arguments, splits
them into non-empty segments, drops the common segment prefix, and joins
`..` entries for the remaining `start` segments with the remaining `path`
segments (`"."` when nothing remains).  It is modelled here for normalized
absolute arguments, which is what the traversal passes: every path handed
to `is_ignored` is `project_dir` extended by `os.path.join` with listing
entries. -/

/-- Length of the common prefix of two segment lists
(`os.path.commonprefix` on split lists). -/
def commonPrefixLen : List (List Char) → List (List Char) → Nat
  | a :: asx, b :: bs => if a = b then commonPrefixLen asx bs + 1 else 0
  | _, _ => 0

/-- `os.path.relpath(path, start)` for normalized absolute paths. -/
def relpath (path start : String) : String :=
  let pl := (splitSlash path.data).filter (· ≠ [])
  let sl := (splitSlash start.data).filter (· ≠ [])
  let i := commonPrefixLen sl pl
  let rel := List.replicate (sl.length - i) ['.', '.'] ++ pl.drop i
  if rel = [] then "." else ⟨joinSlash rel⟩

/-! ### `AutoReadme.is_ignored` -/

/-- `AutoReadme.is_ignored(self, filepath, ignore_files)`:

```python
relative_path = os.path.relpath(filepath, self.project_dir)
if any(part.startswith('.') for part in filepath.split('/')) \
        or "__pycache__" in relative_path:
    return True
for pattern in ignore_files:
    if fnmatch.fnmatch(relative_path, pattern):
        return True
return False
```

`projectDir` stands for `self.project_dir`. -/
def is_ignored (projectDir filepath : String) (ignore_files : List String) : Bool :=
  let relative_path := relpath filepath projectDir
  if (splitSlash filepath.data).any startsDot
      || containsSeg "__pycache__".data relative_path.data then
    true
  else
    ignore_files.any (fun pattern => fnmatch relative_path pattern)

/-! ### `AutoReadme.load_ignore_files`

The Python code iterates over the lines of `.gitignore` as produced by
file iteration: every line keeps its trailing newline except possibly the
last.  `linesKeepEnds` reproduces that decomposition of the file's text. -/

/-- Helper for `linesKeepEnds`: accumulate the current (reversed) line. -/
def linesAux (acc : List Char) : List Char → List (List Char)
  | [] => if acc = [] then [] else [acc.reverse]
  | c :: rest =>
    if c = '\n' then (acc.reverse ++ ['\n']) :: linesAux [] rest
    else linesAux (c :: acc) rest

/-- The lines of a file's text as Python file iteration yields them
(trailing newline kept; no final empty line). -/
def linesKeepEnds (l : List Char) : List (List Char) :=
  linesAux [] l

/-- The test `if line and not line.startswith('#')` of the loader.  A line
produced by file iteration is never the empty string, so the truthiness
test only excludes a (never-occurring) empty line — in particular a blank
line (`"\n"`) passes it. -/
def keepLine : List Char → Bool
  | [] => false
  | c :: _ => c ≠ '#'

/-- The per-line transformation of the loader:
`line.strip().lstrip("/")`, then `line += "*"` when the result ends with
`"/"`. -/
def processPatternLine (line : List Char) : List Char :=
  let l := (pyStrip line).dropWhile (fun c => c = '/')
  if isSuffSeg ['/'] l then l ++ ['*'] else l

/-- `AutoReadme.load_ignore_files(self)`, as a function of the text of the
project's `.gitignore` (an absent file is the empty pattern list, handled
by the caller passing no content):

```python
ignore_files = []
with open(gitignore_path, "r") as f:
    for line in f:
        if line and not line.startswith('#'):
            line = line.strip().lstrip("/")
            if line.endswith("/"):
                line += "*"
            ignore_files.append(line)
return ignore_files
``` -/
def load_ignore_files (content : String) : List String :=
  (linesKeepEnds content.data).foldl
    (fun acc line =>
      if keepLine line then acc ++ [(⟨processPatternLine line⟩ : String)]
      else acc)
    []

/-! ### Directory trees and the two traversals -/

/-- A filesystem entry: a plain file or a directory with its children.
The order of a children list is the operating system's listing order
(`os.listdir` / `os.walk` report entries in that order; only
`generate_project_structure` sorts it). -/
inductive FSTree where
  | file (name : String)
  | dir (name : String) (children : List FSTree)

/-- The entry's own name. -/
def FSTree.name : FSTree → String
  | .file n => n
  | .dir n _ => n

mutual
/-- Number of entries in a tree (termination measure). -/
def countTree : FSTree → Nat
  | .file _ => 1
  | .dir _ cs => 1 + countList cs

/-- Number of entries in a forest. -/
def countList : List FSTree → Nat
  | [] => 0
  | t :: ts => countTree t + countList ts
end

theorem countTree_pos (t : FSTree) : 1 ≤ countTree t := by
  cases t <;> simp [countTree]

/-- Stable insertion into a name-sorted forest (`sorted` is stable and
compares names as Python strings). -/
def insertByName (t : FSTree) : List FSTree → List FSTree
  | [] => [t]
  | u :: us =>
    if charListLe t.name.data u.name.data then t :: u :: us
    else u :: insertByName t us

/-- `sorted(os.listdir(dir_path))`: the children sorted by name. -/
def sortByName : List FSTree → List FSTree
  | [] => []
  | t :: ts => insertByName t (sortByName ts)

mutual
/-- A tree with every directory listing name-sorted.  The source sorts
each listing at visit time (`sorted(os.listdir(dir_path))`); sorting one
level never influences another, so pre-sorting every level once yields the
very same traversal. -/
def sortTree : FSTree → FSTree
  | .file n => .file n
  | .dir n cs => .dir n (sortForest cs)

/-- Sort a forest by name (and every nested listing). -/
def sortForest : List FSTree → List FSTree
  | [] => []
  | t :: ts => insertByName (sortTree t) (sortForest ts)
end

/-- The indentation prefix `'  ' * indent_level`. -/
def indentStr (indent : Nat) : String :=
  ⟨List.replicate (2 * indent) ' '⟩

/-! The recursion of `AutoReadme.generate_project_structure`:

```python
markdown_lines = []
for item in sorted(os.listdir(dir_path)):
    item_path = os.path.join(dir_path, item)
    if self.is_ignored(item_path, ignore_files):
        continue
    if os.path.isdir(item_path):
        markdown_lines.append(f"..- **item/**")
        markdown_lines.extend(self.generate_project_structure(item_path, indent_level + 1, ignore_files))
    else:
        markdown_lines.append(f"..- item")
return markdown_lines
```

The mutual split below renders one (non-ignored) entry
(`structItem`) and a directory listing (`structForest`); the source's
`line :: (child_lines ++ sibling_lines)` regrouped as
`(line :: child_lines) ++ sibling_lines`. -/
mutual
/-- The lines contributed by one non-ignored entry of `dirPath`. -/
def structItem (pd : String) (pats : List String) :
    FSTree → String → Nat → List String
  | .file n, _, indent => [indentStr indent ++ "- " ++ n]
  | .dir n cs, dirPath, indent =>
    (indentStr indent ++ "- **" ++ n ++ "/**") ::
      structForest pd pats cs (dirPath ++ "/" ++ n) (indent + 1)

/-- The lines contributed by the (pre-sorted) listing of `dirPath`. -/
def structForest (pd : String) (pats : List String) :
    List FSTree → String → Nat → List String
  | [], _, _ => []
  | item :: rest, dirPath, indent =>
    if is_ignored pd (dirPath ++ "/" ++ item.name) pats then
      structForest pd pats rest dirPath indent
    else
      structItem pd pats item dirPath indent ++
        structForest pd pats rest dirPath indent
end

/-- `AutoReadme.generate_project_structure(self, dir_path)` at the project
root, as a function of the root's children and the loaded patterns. -/
def generate_project_structure (pd : String) (tree : List FSTree)
    (pats : List String) : List String :=
  structForest pd pats (sortForest tree) pd 0

/-! Observer of the same structural traversal: the paths of the
non-ignored *files* the walk reaches (the walk skips an ignored entry
entirely, so it never reaches anything below an ignored directory).  This
is the "non-ignored file paths discovered by the structural walk". -/
mutual
/-- The discovered file paths below one non-ignored entry of `dirPath`. -/
def structFilesItem (pd : String) (pats : List String) :
    FSTree → String → List String
  | .file n, dirPath => [dirPath ++ "/" ++ n]
  | .dir n cs, dirPath =>
    structFilesForest pd pats cs (dirPath ++ "/" ++ n)

/-- The discovered file paths of the listing of `dirPath`. -/
def structFilesForest (pd : String) (pats : List String) :
    List FSTree → String → List String
  | [], _ => []
  | item :: rest, dirPath =>
    if is_ignored pd (dirPath ++ "/" ++ item.name) pats then
      structFilesForest pd pats rest dirPath
    else
      structFilesItem pd pats item dirPath ++
        structFilesForest pd pats rest dirPath
end

/-- The file paths discovered (and rendered) by the structural walk. -/
def structure_files (pd : String) (tree : List FSTree)
    (pats : List String) : List String :=
  structFilesForest pd pats (sortForest tree) pd

/-- The names of the file children of a directory, in listing order. -/
def filesOf (cs : List FSTree) : List String :=
  cs.filterMap fun t =>
    match t with
    | .file n => some n
    | .dir _ _ => none

mutual
/-- `os.walk` triples contributed by one entry of the directory at
`parent` (a file contributes none; a directory contributes its own triple
followed by its descendants'). -/
def walkTree (parent : String) : FSTree → List (String × List String)
  | .file _ => []
  | .dir n cs =>
    (parent ++ "/" ++ n, filesOf cs) :: walkForest (parent ++ "/" ++ n) cs

/-- `os.walk` triples contributed by the children of the directory at
`parent`, in listing order. -/
def walkForest (parent : String) : List FSTree → List (String × List String)
  | [] => []
  | t :: ts => walkTree parent t ++ walkForest parent ts
end

/-- All `(root, files)` pairs of `os.walk(top)` for a root directory with
children `tree`: the top triple first, then the subtrees top-down. -/
def osWalk (top : String) (tree : List FSTree) : List (String × List String) :=
  (top, filesOf tree) :: walkForest top tree

/-- The relevance test of the flat scan (`file` is the entry name, `root`
the directory's path):

```python
file.endswith(".py") or file.endswith(".sh") or file.endswith(".bash") or
  (file.endswith(".json") and "config" in root.lower())
``` -/
def relevantName (file root : String) : Bool :=
  isSuffSeg ".py".data file.data || isSuffSeg ".sh".data file.data
    || isSuffSeg ".bash".data file.data
    || (isSuffSeg ".json".data file.data
        && containsSeg "config".data (lowerStr root).data)

/-- `AutoReadme.find_all_scripts_and_config_files(self)`:

```python
scripts = []
for root, dirs, files in os.walk(self.project_dir):
    for file in files:
        filepath = os.path.join(root, file)
        if not self.is_ignored(filepath, ignore_files):
            if ((file.endswith(".py") or ... or
                 (file.endswith(".json") and "config" in root.lower()))
                    and os.path.isfile(filepath)):
                scripts.append(filepath)
return scripts
```

The `os.path.isfile` conjunct is `true` in the model: the names iterated
here are exactly the file entries of each directory. -/
def find_all_scripts_and_config_files (pd : String) (tree : List FSTree)
    (pats : List String) : List String :=
  (osWalk pd tree).flatMap fun rf =>
    rf.2.filterMap fun file =>
      let filepath := rf.1 ++ "/" ++ file
      if is_ignored pd filepath pats then none
      else if relevantName file rf.1 then some filepath
      else none

/-! ### `json.loads` and `parse_requirements_output`

The defensive parser of `generate_project_requirements` strips character
sets from both ends of the reply (`str.lstrip`/`str.rstrip` with a
character *set*, not a prefix/suffix), runs `json.loads`, and indexes the
result with `"requirements"`; *every* exception is caught and turned into
the empty list.  `json.loads` is embedded below: JSON values become
`PyJson`, a failed parse becomes `none`.  Floats are kept as their raw
token text (no claim inspects them); `\uXXXX` escapes are mapped to the
denoted scalar value (surrogate halves are rejected, where Python would
build a lone surrogate — no claim exercises that corner). -/

/-- A Python value produced by `json.loads`. -/
inductive PyJson where
  | null
  | bool (b : Bool)
  | int (n : Int)
  | float (raw : String)
  | str (s : String)
  | arr (elems : List PyJson)
  | obj (fields : List (String × PyJson))

/-- The opening curly brace character. -/
def lcurly : Char := Char.ofNat 123

/-- The closing curly brace character. -/
def rcurly : Char := Char.ofNat 125

/-- JSON whitespace (Python `json` skips exactly these). -/
def isJsonWs (c : Char) : Bool :=
  c = ' ' || c = '\t' || c = '\n' || c = '\r'

/-- Skip JSON whitespace. -/
def skipWs (l : List Char) : List Char :=
  l.dropWhile isJsonWs

/-- Hexadecimal digit value (code points 48–57 are `0`–`9`, 97–102 are
`a`–`f`, 65–70 are `A`–`F`). -/
def hexVal (c : Char) : Option Nat :=
  let n := c.toNat
  if 48 ≤ n && n ≤ 57 then some (n - 48)
  else if 97 ≤ n && n ≤ 102 then some (n - 87)
  else if 65 ≤ n && n ≤ 70 then some (n - 55)
  else none

/-- Body of a JSON string after the opening quote: content and rest after
the closing quote.  Unescaped control characters and bad escapes are
errors (Python strict mode). -/
def parseStringBody : List Char → Option (List Char × List Char)
  | [] => none
  | '"' :: r => some ([], r)
  | '\\' :: '"' :: r => (parseStringBody r).map (fun p => ('"' :: p.1, p.2))
  | '\\' :: '\\' :: r => (parseStringBody r).map (fun p => ('\\' :: p.1, p.2))
  | '\\' :: '/' :: r => (parseStringBody r).map (fun p => ('/' :: p.1, p.2))
  | '\\' :: 'b' :: r => (parseStringBody r).map (fun p => ('\x08' :: p.1, p.2))
  | '\\' :: 'f' :: r => (parseStringBody r).map (fun p => ('\x0c' :: p.1, p.2))
  | '\\' :: 'n' :: r => (parseStringBody r).map (fun p => ('\n' :: p.1, p.2))
  | '\\' :: 'r' :: r => (parseStringBody r).map (fun p => ('\r' :: p.1, p.2))
  | '\\' :: 't' :: r => (parseStringBody r).map (fun p => ('\t' :: p.1, p.2))
  | '\\' :: 'u' :: h1 :: h2 :: h3 :: h4 :: r =>
    match hexVal h1, hexVal h2, hexVal h3, hexVal h4 with
    | some a, some b, some c, some d =>
      let n := ((a * 16 + b) * 16 + c) * 16 + d
      if n < 0xd800 || 0xe000 ≤ n then
        (parseStringBody r).map (fun p => (Char.ofNat n :: p.1, p.2))
      else none
    | _, _, _, _ => none
  | '\\' :: _ => none
  | c :: r =>
    if c.toNat < 32 then none
    else (parseStringBody r).map (fun p => (c :: p.1, p.2))

/-- One decimal digit? -/
def isDig (c : Char) : Bool :=
  '0' ≤ c && c ≤ '9'

/-- Digits of the integer part per the JSON grammar:
`0` alone, or a nonzero digit followed by digits. -/
def parseIntDigits : List Char → Option (List Char × List Char)
  | [] => none
  | c :: r =>
    if c = '0' then some (['0'], r)
    else if '1' ≤ c && c ≤ '9' then
      some (c :: r.takeWhile isDig, r.dropWhile isDig)
    else none

/-- Optional fraction part `.digits` (not consumed unless a digit follows
the dot, as the number regex matches greedily but optionally). -/
def parseFrac (l : List Char) : List Char × List Char :=
  match l with
  | '.' :: r =>
    if (r.takeWhile isDig) = [] then ([], l)
    else ('.' :: r.takeWhile isDig, r.dropWhile isDig)
  | _ => ([], l)

/-- Optional exponent part `[eE][+-]?digits`. -/
def parseExp (l : List Char) : List Char × List Char :=
  match l with
  | c :: r =>
    if c = 'e' || c = 'E' then
      match r with
      | s :: r2 =>
        if s = '+' || s = '-' then
          if (r2.takeWhile isDig) = [] then ([], l)
          else (c :: s :: r2.takeWhile isDig, r2.dropWhile isDig)
        else if (r.takeWhile isDig) = [] then ([], l)
        else (c :: r.takeWhile isDig, r.dropWhile isDig)
      | [] => ([], l)
    else ([], l)
  | [] => ([], l)

/-- Decimal digits to a natural number. -/
def digitsToNat (l : List Char) : Nat :=
  l.foldl (fun acc c => acc * 10 + (c.toNat - '0'.toNat)) 0

/-- A JSON number token: an `int` when it has no fraction/exponent,
otherwise a `float` carrying the raw token. -/
def parseNumber (l : List Char) : Option (PyJson × List Char) :=
  let (neg, l1) :=
    match l with
    | '-' :: r => (true, r)
    | _ => (false, l)
  match parseIntDigits l1 with
  | none => none
  | some (ds, r1) =>
    let (fr, r2) := parseFrac r1
    let (ex, r3) := parseExp r2
    if fr = [] ∧ ex = [] then
      let n : Int := Int.ofNat (digitsToNat ds)
      some (.int (if neg then -n else n), r3)
    else
      some (.float ⟨(if neg then ['-'] else []) ++ ds ++ fr ++ ex⟩, r3)

mutual
/-- Parse one JSON value (fuel-driven; `jsonLoads` supplies ample fuel). -/
def parseValue : Nat → List Char → Option (PyJson × List Char)
  | 0, _ => none
  | _ + 1, 'n' :: 'u' :: 'l' :: 'l' :: r => some (.null, r)
  | _ + 1, 't' :: 'r' :: 'u' :: 'e' :: r => some (.bool true, r)
  | _ + 1, 'f' :: 'a' :: 'l' :: 's' :: 'e' :: r => some (.bool false, r)
  | _ + 1, 'N' :: 'a' :: 'N' :: r => some (.float "nan", r)
  | _ + 1, 'I' :: 'n' :: 'f' :: 'i' :: 'n' :: 'i' :: 't' :: 'y' :: r =>
    some (.float "inf", r)
  | _ + 1, '-' :: 'I' :: 'n' :: 'f' :: 'i' :: 'n' :: 'i' :: 't' :: 'y' :: r =>
    some (.float "-inf", r)
  | _ + 1, '"' :: r => (parseStringBody r).map (fun p => (.str ⟨p.1⟩, p.2))
  | f + 1, '[' :: r =>
    (match skipWs r with
     | ']' :: r2 => some (.arr [], r2)
     | r2 => (parseElems f r2).map (fun p => (.arr p.1, p.2)))
  | f + 1, c :: r =>
    if c = lcurly then
      match skipWs r with
      | c2 :: r2 =>
        if c2 = rcurly then some (.obj [], r2)
        else (parseMembers f (c2 :: r2)).map (fun p => (.obj p.1, p.2))
      | [] => none
    else parseNumber (c :: r)
  | _ + 1, [] => none

/-- Parse the elements of a non-empty JSON array (after `[` and
whitespace). -/
def parseElems : Nat → List Char → Option (List PyJson × List Char)
  | 0, _ => none
  | f + 1, l =>
    match parseValue f l with
    | none => none
    | some (v, r) =>
      match skipWs r with
      | ',' :: r2 => (parseElems f (skipWs r2)).map (fun p => (v :: p.1, p.2))
      | ']' :: r2 => some ([v], r2)
      | _ => none

/-- Parse the members of a non-empty JSON object (after the opening brace
and whitespace). -/
def parseMembers : Nat → List Char → Option (List (String × PyJson) × List Char)
  | 0, _ => none
  | f + 1, '"' :: r =>
    match parseStringBody r with
    | none => none
    | some (k, r1) =>
      match skipWs r1 with
      | ':' :: r2 =>
        match parseValue f (skipWs r2) with
        | none => none
        | some (v, r3) =>
          match skipWs r3 with
          | ',' :: r4 =>
            (parseMembers f (skipWs r4)).map (fun p => ((⟨k⟩, v) :: p.1, p.2))
          | c :: r4 =>
            if c = rcurly then some ([(⟨k⟩, v)], r4) else none
          | [] => none
      | _ => none
  | _ + 1, _ => none
end

/-- `json.loads`: skip leading whitespace, parse one value, require only
whitespace to remain.  The fuel `2 * length + 2` dominates the recursion
depth (every two fuel units consume at least one character). -/
def jsonLoads (s : String) : Option PyJson :=
  let l := skipWs s.data
  match parseValue (2 * l.length + 2) l with
  | some (v, rest) => if skipWs rest = [] then some v else none
  | none => none

/-- Python dict lookup for an object built from parsed members (a
duplicated key keeps the value of its last occurrence). -/
def lookupLast (k : String) : List (String × PyJson) → Option PyJson
  | [] => none
  | (k', v) :: rest =>
    match lookupLast k rest with
    | some r => some r
    | none => if k' = k then some v else none

/-- Python `s.lstrip(chars)`: drop leading characters belonging to the
set. -/
def lstripSet (l set : List Char) : List Char :=
  l.dropWhile (fun c => set.contains c)

/-- Python `s.rstrip(chars)`. -/
def rstripSet (l set : List Char) : List Char :=
  (l.reverse.dropWhile (fun c => set.contains c)).reverse

/-- `output.lstrip("```json").rstrip("```")`: strips the character *sets*
(backtick, j, s, o, n — then backtick), not the literal prefix/suffix. -/
def stripReply (output : String) : String :=
  ⟨rstripSet (lstripSet output.data "```json".data) "```".data⟩

/-- `parse_requirements_output(output)` (inner function of
`generate_project_requirements`):

```python
try:
    output_str = output.lstrip("```json").rstrip("```")
    output_dict = json.loads(output_str)
    output_list = output_dict["requirements"]
except Exception as e:
    logging.error(...)
    output_list = []
return output_list
```

A failed `json.loads` (`JSONDecodeError`), indexing a non-dict
(`TypeError`) and a missing key (`KeyError`) are all caught by the bare
`except`, giving `[]`; a present key returns its value unchecked. -/
def parse_requirements_output (output : String) : PyJson :=
  match jsonLoads (stripReply output) with
  | some (PyJson.obj kvs) =>
    match lookupLast "requirements" kvs with
    | some v => v
    | none => PyJson.arr []
  | some _ => PyJson.arr []
  | none => PyJson.arr []

/-- `AutoReadme.generate_project_requirements(self)`, as a function of the
text-generation collaborator's reply: the environment snapshot, import
extraction and prompt assembly only build the request; the returned list
is exactly `parse_requirements_output(answer)`. -/
def generate_project_requirements (answer : String) : PyJson :=
  parse_requirements_output answer

/-! ### `get_dependency_content` and `generate_readme` -/

/-- Python `str.title()` for ASCII text: the first letter of every
letter-run uppercased, the rest lowercased. -/
def titleChars (prevAlpha : Bool) : List Char → List Char
  | [] => []
  | c :: r =>
    let isA := c.isAlpha
    let c' :=
      if isA then
        if prevAlpha then lowerChar c
        else if c.isLower then Char.ofNat (c.toNat - 32)
        else c
      else c
    c' :: titleChars isA r

/-- Python `s.title()` (ASCII). -/
def pyTitle (s : String) : String :=
  ⟨titleChars false s.data⟩

/-- Does `os.listdir(out_put_dir)` entry `file` count as a prior
artifact? `file == "requirements.txt" or file == "PROJECT_STRUCTURE.md"
or file == "SCRIPT_DESCRIPTION.json" or "README" in file`. -/
def isArtifactName (file : String) : Bool :=
  file = "requirements.txt" || file = "PROJECT_STRUCTURE.md"
    || file = "SCRIPT_DESCRIPTION.json" || containsSeg "README".data file.data

/-- `AutoReadme.get_dependency_content(self)`, as a function of the output
directory's listing paired with each file's text:

```python
files = os.listdir(self.out_put_dir)
if files == []:
    return {}
dependency_content = {}
for file in files:
    if file == "requirements.txt" or ... or "README" in file:
        dependency_content[file.title()] = content
return dependency_content
```

The dict (insertion-ordered) is modelled as an association list. -/
def get_dependency_content (listing : List (String × String)) :
    List (String × String) :=
  if listing = [] then []
  else
    listing.filterMap fun fc =>
      if isArtifactName fc.1 then some (pyTitle fc.1, fc.2) else none

/-- `AutoReadme.generate_readme(self)`: when `get_dependency_content`
comes back empty the function logs an error and returns without writing;
otherwise the collaborator's reply is written as the README.  The result
is the content written to `README.md`, `none` when nothing is written. -/
def generate_readme (listing : List (String × String)) (answer : String) :
    Option String :=
  if get_dependency_content listing = [] then none
  else some answer

/-! ### Behavior on a missing project root

`generate_project_structure` starts with `os.listdir(dir_path)`, which
raises `FileNotFoundError` when the directory does not exist;
`find_all_scripts_and_config_files` starts with
`os.walk(self.project_dir)`, which (with the default `onerror=None`)
*suppresses* the scandir error and yields no triples at all.  A root is
modelled as `Option (List FSTree)`: `none` is a missing directory. -/

/-- The error escaping the traversal. -/
inductive PyErr where
  | fileNotFoundError
deriving DecidableEq

/-- `generate_project_structure(self, project_dir)` including the missing
root behavior of `os.listdir`. -/
def generate_project_structure_run (root : Option (List FSTree))
    (pd : String) (pats : List String) : Except PyErr (List String) :=
  match root with
  | none => Except.error PyErr.fileNotFoundError
  | some tree => Except.ok (generate_project_structure pd tree pats)

/-- `find_all_scripts_and_config_files(self)` including the missing root
behavior of `os.walk` (no triples, hence an empty result, no error;
`load_ignore_files` finds no `.gitignore` under the missing root, which
is also not an error). -/
def find_all_run (root : Option (List FSTree)) (pd : String)
    (pats : List String) : Except PyErr (List String) :=
  match root with
  | none => Except.ok []
  | some tree => Except.ok (find_all_scripts_and_config_files pd tree pats)

/-! ### Spec-side definitions for comparison

These definitions are written from the words of the specification (not
from the code) and exist only to be compared with the embedded code. -/

/-- Modelled from the spec, for comparison: the pattern loader as claim C2
words it — "no pattern from a blank line and no pattern from a line
beginning with `#`; one entry per remaining line, stripped of surrounding
whitespace and a *single* leading path separator" (with the trailing-
separator wildcard normalization of §4.1). -/
def load_ignore_files_claim (content : String) : List String :=
  (linesKeepEnds content.data).filterMap fun line =>
    if pyStrip line = [] then none
    else if line.head? = some '#' then none
    else
      let t :=
        match pyStrip line with
        | '/' :: r => r
        | t => t
      some ⟨if isSuffSeg ['/'] t then t ++ ['*'] else t⟩

/-- The amended description of the loader: `#`-initial lines contribute
nothing; every other line — blank lines included, because an iterated
line keeps its newline and is therefore truthy — contributes exactly one
pattern: the line stripped of surrounding whitespace and of *all* leading
separators, with `*` appended when the stripped text ends in a
separator. -/
def load_ignore_files_amended (content : String) : List String :=
  (linesKeepEnds content.data).filterMap fun line =>
    if keepLine line then some (⟨processPatternLine line⟩ : String)
    else none

/-- Modelled from the spec, for comparison: the "dependency name" of a
`name==version` requirement entry — the text before the version
separator. -/
def depName (s : String) : String :=
  ⟨s.data.takeWhile (fun c => c ≠ '=')⟩

/-- Does `json.loads` of the stripped reply yield a dict carrying a
`"requirements"` key?  (The only situation in which
`parse_requirements_output` returns something other than `[]`.) -/
def hasReqKey (output : String) : Bool :=
  match jsonLoads (stripReply output) with
  | some (PyJson.obj kvs) => (lookupLast "requirements" kvs).isSome
  | _ => false

/-! ### Supporting lemmas -/

/-- Does any `/`-separated segment of the string start with a dot?  (The
test `any(part.startswith('.') for part in filepath.split('/'))`.) -/
def hasDotSeg (s : String) : Bool :=
  (splitSlash s.data).any startsDot

theorem data_append_slash (a b : String) :
    (a ++ "/" ++ b).data = a.data ++ '/' :: b.data := by
  rw [String.data_append, String.data_append]
  simp

theorem splitSlash_ne_nil : ∀ l : List Char, splitSlash l ≠ [] := by
  intro l
  cases l with
  | nil => simp [splitSlash]
  | cons c cs =>
    by_cases hc : c = '/'
    · simp [splitSlash, hc]
    · simp only [splitSlash, if_neg hc]
      cases splitSlash cs <;> simp

theorem splitSlash_append (xs ys : List Char) :
    splitSlash (xs ++ '/' :: ys) = splitSlash xs ++ splitSlash ys := by
  induction xs with
  | nil => simp [splitSlash]
  | cons c xs ih =>
    by_cases hc : c = '/'
    · simp [splitSlash, hc, ih]
    · obtain ⟨s0, r0, hs⟩ : ∃ s0 r0, splitSlash xs = s0 :: r0 := by
        cases h : splitSlash xs with
        | nil => exact absurd h (splitSlash_ne_nil xs)
        | cons a b => exact ⟨a, b, rfl⟩
      have hleft : splitSlash (c :: (xs ++ '/' :: ys))
          = (c :: s0) :: (r0 ++ splitSlash ys) := by
        simp only [splitSlash, if_neg hc]
        rw [ih, hs]
        simp
      rw [List.cons_append, hleft]
      simp only [splitSlash, if_neg hc]
      rw [hs]
      simp

theorem hasDotSeg_extend (a b : String) (h : hasDotSeg a = true) :
    hasDotSeg (a ++ "/" ++ b) = true := by
  unfold hasDotSeg at h ⊢
  rw [data_append_slash, splitSlash_append, List.any_append, h]
  simp

theorem ignored_of_dotSeg (pd fp : String) (pats : List String)
    (h : hasDotSeg fp = true) : is_ignored pd fp pats = true := by
  unfold hasDotSeg at h
  simp [is_ignored, h]

theorem ignored_of_pycache (pd fp : String) (pats : List String)
    (h : containsSeg "__pycache__".data (relpath fp pd).data = true) :
    is_ignored pd fp pats = true := by
  simp [is_ignored, h]

theorem ignored_of_pattern (pd fp : String) (pats : List String) (p : String)
    (hmem : p ∈ pats) (hm : fnmatch (relpath fp pd) p = true) :
    is_ignored pd fp pats = true := by
  unfold is_ignored
  cases hc : ((splitSlash fp.data).any startsDot
      || containsSeg "__pycache__".data (relpath fp pd).data) with
  | true => simp [hc]
  | false =>
    simp only [hc, if_false, Bool.false_eq_true]
    exact List.any_eq_true.mpr ⟨p, hmem, hm⟩

theorem walkForest_root_dot : ∀ (n : Nat) (ts : List FSTree) (parent : String),
    countList ts ≤ n → hasDotSeg parent = true →
    ∀ rf ∈ walkForest parent ts, hasDotSeg rf.1 = true := by
  intro n
  induction n with
  | zero =>
    intro ts parent hle _ rf hrf
    cases ts with
    | nil => simp [walkForest] at hrf
    | cons t rest =>
      have := countTree_pos t
      simp [countList] at hle
      omega
  | succ n ih =>
    intro ts parent hle hdot rf hrf
    cases ts with
    | nil => simp [walkForest] at hrf
    | cons t rest =>
      have hbound : countTree t + countList rest ≤ n + 1 := by
        simpa [countList] using hle
      simp only [walkForest] at hrf
      rw [List.mem_append] at hrf
      cases hrf with
      | inl h1 =>
        cases t with
        | file nm => simp [walkTree] at h1
        | dir nm cs =>
          have hcs : countList cs ≤ n := by
            simp [countTree] at hbound
            omega
          simp only [walkTree] at h1
          rw [List.mem_cons] at h1
          cases h1 with
          | inl he =>
            rw [he]
            exact hasDotSeg_extend _ _ hdot
          | inr hm =>
            exact ih cs (parent ++ "/" ++ nm) hcs
              (hasDotSeg_extend _ _ hdot) rf hm
      | inr h2 =>
        have hrest : countList rest ≤ n := by
          have := countTree_pos t
          omega
        exact ih rest parent hrest hdot rf h2

theorem find_all_nil_of_dot (pd : String) (tree : List FSTree)
    (pats : List String) (hdot : hasDotSeg pd = true) :
    find_all_scripts_and_config_files pd tree pats = [] := by
  unfold find_all_scripts_and_config_files
  rw [List.flatMap_eq_nil_iff]
  intro rf hrf
  rw [List.filterMap_eq_nil_iff]
  intro file _
  have hr1 : hasDotSeg rf.1 = true := by
    rw [osWalk, List.mem_cons] at hrf
    cases hrf with
    | inl he => rw [he]; exact hdot
    | inr hm =>
      exact walkForest_root_dot (countList tree) tree pd le_rfl hdot rf hm
  have hig : is_ignored pd (rf.1 ++ "/" ++ file) pats = true :=
    ignored_of_dotSeg _ _ _ (hasDotSeg_extend _ _ hr1)
  simp [hig]

theorem structForest_nil_of_dot (pd : String) (pats : List String) :
    ∀ (items : List FSTree) (dirPath : String) (indent : Nat),
      hasDotSeg dirPath = true →
      structForest pd pats items dirPath indent = [] := by
  intro items
  induction items with
  | nil => intro dp ind _; simp [structForest]
  | cons item rest ih =>
    intro dp ind hdot
    have hi : is_ignored pd (dp ++ "/" ++ item.name) pats = true :=
      ignored_of_dotSeg _ _ _ (hasDotSeg_extend _ _ hdot)
    rw [structForest, if_pos hi]
    exact ih dp ind hdot

theorem find_all_mem_not_ignored (pd : String) (tree : List FSTree)
    (pats : List String) (fp : String)
    (hmem : fp ∈ find_all_scripts_and_config_files pd tree pats) :
    is_ignored pd fp pats = false := by
  unfold find_all_scripts_and_config_files at hmem
  rw [List.mem_flatMap] at hmem
  obtain ⟨rf, -, hf⟩ := hmem
  rw [List.mem_filterMap] at hf
  obtain ⟨file, -, harm⟩ := hf
  by_cases hi : is_ignored pd (rf.1 ++ "/" ++ file) pats = true
  · simp [hi] at harm
  · rw [Bool.not_eq_true] at hi
    by_cases hrel : relevantName file rf.1 = true
    · simp only [hi, hrel, if_true, if_false, Bool.false_eq_true] at harm
      have heq : rf.1 ++ "/" ++ file = fp := Option.some_inj.mp harm
      rw [← heq]
      exact hi
    · rw [Bool.not_eq_true] at hrel
      simp [hi, hrel] at harm

theorem structFiles_mem_not_ignored (pd : String) (pats : List String) :
    ∀ (n : Nat) (items : List FSTree) (dirPath fp : String),
      countList items ≤ n → fp ∈ structFilesForest pd pats items dirPath →
      is_ignored pd fp pats = false := by
  intro n
  induction n with
  | zero =>
    intro items dp fp hle hmem
    cases items with
    | nil => simp [structFilesForest] at hmem
    | cons t rest =>
      have := countTree_pos t
      simp [countList] at hle
      omega
  | succ n ih =>
    intro items dp fp hle hmem
    cases items with
    | nil => simp [structFilesForest] at hmem
    | cons item rest =>
      have hbound : countTree item + countList rest ≤ n + 1 := by
        simpa [countList] using hle
      have hrest : countList rest ≤ n := by
        have := countTree_pos item
        omega
      by_cases hi : is_ignored pd (dp ++ "/" ++ item.name) pats = true
      · rw [structFilesForest, if_pos hi] at hmem
        exact ih rest dp fp hrest hmem
      · rw [Bool.not_eq_true] at hi
        rw [structFilesForest, if_neg (by simp [hi])] at hmem
        rw [List.mem_append] at hmem
        cases hmem with
        | inl h1 =>
          cases item with
          | file nm =>
            simp only [structFilesItem, List.mem_singleton] at h1
            rw [h1]
            simpa [FSTree.name] using hi
          | dir nm cs =>
            have hcs : countList cs ≤ n := by
              simp [countTree] at hbound
              omega
            simp only [structFilesItem, FSTree.name] at h1
            exact ih cs (dp ++ "/" ++ nm) fp hcs h1
        | inr h2 => exact ih rest dp fp hrest h2

theorem foldl_keep_append : ∀ (ls : List (List Char)) (acc : List String),
    ls.foldl
      (fun acc line =>
        if keepLine line then acc ++ [(⟨processPatternLine line⟩ : String)]
        else acc) acc
      = acc ++ ls.filterMap
          (fun line =>
            if keepLine line then some (⟨processPatternLine line⟩ : String)
            else none) := by
  intro ls
  induction ls with
  | nil => simp
  | cons l ls ih =>
    intro acc
    by_cases hk : keepLine l = true
    · simp [hk, ih]
    · rw [Bool.not_eq_true] at hk
      simp [hk, ih]

/-! ### The claims -/

/-- C1 (counterexample): the flat relevant-file list is *not* always a
subset of the non-ignored file paths discovered by the structural walk.
With `.gitignore` line `build` (no trailing separator) and tree
`build/x.py`, the structural walk prunes the directory `build` (its
relative path matches the pattern) and discovers no file at all, while the
flat scan tests `build/x.py` itself — which matches nothing — and keeps
it. -/
theorem c1_counterexample :
    load_ignore_files "build\n" = ["build"]
      ∧ is_ignored "/proj" "/proj/build" (load_ignore_files "build\n") = true
      ∧ is_ignored "/proj" "/proj/build/x.py" (load_ignore_files "build\n")
          = false
      ∧ structure_files "/proj" [FSTree.dir "build" [FSTree.file "x.py"]]
          (load_ignore_files "build\n") = []
      ∧ find_all_scripts_and_config_files "/proj"
          [FSTree.dir "build" [FSTree.file "x.py"]]
          (load_ignore_files "build\n") = ["/proj/build/x.py"] :=
  ⟨by decide, by decide, by decide, by decide, by decide⟩

/-- C1 (amended): both traversals decide every path they test with the
same predicate `is_ignored` and the same patterns, and consequently every
path either of them outputs is itself non-ignored; but the subset relation
fails in general, because the structural walk prunes an ignored directory
without testing its descendants while the flat walk tests each file's own
path (see `c1_counterexample`). -/
theorem c1_amended_outputs_not_ignored :
    ∀ (pd : String) (tree : List FSTree) (pats : List String) (fp : String),
      (fp ∈ find_all_scripts_and_config_files pd tree pats →
        is_ignored pd fp pats = false)
      ∧ (fp ∈ structure_files pd tree pats → is_ignored pd fp pats = false) := by
  intro pd tree pats fp
  constructor
  · exact find_all_mem_not_ignored pd tree pats fp
  · intro h
    unfold structure_files at h
    exact structFiles_mem_not_ignored pd pats (countList (sortForest tree))
      (sortForest tree) pd fp le_rfl h

/-- C1 (witness for the amended theorem). -/
theorem c1_witness :
    ("/proj/build/x.py"
        ∈ find_all_scripts_and_config_files "/proj"
            [FSTree.dir "build" [FSTree.file "x.py"]] ["build"])
      ∧ is_ignored "/proj" "/proj/build/x.py" ["build"] = false
      ∧ ("/proj/a.py" ∈ structure_files "/proj" [FSTree.file "a.py"] [])
      ∧ is_ignored "/proj" "/proj/a.py" [] = false :=
  ⟨by decide,
   (c1_amended_outputs_not_ignored "/proj"
      [FSTree.dir "build" [FSTree.file "x.py"]] ["build"]
      "/proj/build/x.py").1 (by decide),
   by decide,
   (c1_amended_outputs_not_ignored "/proj" [FSTree.file "a.py"] []
      "/proj/a.py").2 (by decide)⟩

/-- C2 (counterexample): on the ignore file `"\n//x\n"` the loader keeps
the blank line (the iterated line is `"\n"`, which is truthy) as the empty
pattern, and strips *all* leading separators of `"//x"`; the claim's
reading (blank line skipped, a single separator stripped) predicts
`["/x"]`, the code produces `["", "x"]`. -/
theorem c2_counterexample :
    load_ignore_files "\n//x\n" = ["", "x"]
      ∧ load_ignore_files_claim "\n//x\n" = ["/x"]
      ∧ load_ignore_files "\n//x\n" ≠ load_ignore_files_claim "\n//x\n" :=
  ⟨by decide, by decide, by decide⟩

/-- C2 (amended): lines beginning with `#` contribute no pattern; every
other line — blank lines included — contributes exactly one entry, the
line stripped of surrounding whitespace and of all leading path
separators, with the trailing-separator wildcard normalization. -/
theorem c2_amended_loader_eq (content : String) :
    load_ignore_files content = load_ignore_files_amended content := by
  unfold load_ignore_files load_ignore_files_amended
  rw [foldl_keep_append]
  simp

/-- C3: with the ignore-file line `build/` the loaded pattern set ignores
every path whose project-relative path extends `build/`, and does not
ignore the sibling whose relative path is literally `build`. -/
theorem c3_directory_pattern_normalization :
    (∀ (pd fp s : String), s ≠ "" →
        relpath fp pd = "build/" ++ s →
        is_ignored pd fp (load_ignore_files "build/\n") = true)
      ∧ is_ignored "/proj" "/proj/build" (load_ignore_files "build/\n")
          = false := by
  constructor
  · intro pd fp s _ hrel
    have hpats : load_ignore_files "build/\n" = ["build/*"] := by decide
    rw [hpats]
    apply ignored_of_pattern pd fp ["build/*"] "build/*" (by simp)
    rw [hrel]
    unfold fnmatch
    have htok : tokenizeGlob "build/*".data
        = [GlobTok.lit 'b', GlobTok.lit 'u', GlobTok.lit 'i', GlobTok.lit 'l',
           GlobTok.lit 'd', GlobTok.lit '/', GlobTok.star] := by decide
    have hdata : ("build/" ++ s).data
        = 'b' :: 'u' :: 'i' :: 'l' :: 'd' :: '/' :: s.data := by
      rw [String.data_append]
      rfl
    rw [htok, hdata]
    simp [matchToks, matchToks_star_any]
    exact nil_mem_listSuffixes s.data
  · decide

/-- C3 (witness). -/
theorem c3_witness :
    ("x" : String) ≠ ""
      ∧ relpath "/proj/build/x" "/proj" = "build/" ++ "x"
      ∧ is_ignored "/proj" "/proj/build/x" (load_ignore_files "build/\n")
          = true :=
  ⟨by decide, by decide,
   c3_directory_pattern_normalization.1 "/proj" "/proj/build/x" "x"
     (by decide) (by decide)⟩

/-- C4 (counterexample): `generate_project_requirements` performs no
deduplication — a successfully parsed reply carrying two entries with the
dependency name `a` is returned with both entries. -/
theorem c4_counterexample :
    generate_project_requirements
        "\x7b\"requirements\": [\"a==1.0\", \"a==2.0\"]\x7d"
      = PyJson.arr [PyJson.str "a==1.0", PyJson.str "a==2.0"]
      ∧ depName "a==1.0" = depName "a==2.0"
      ∧ ("a==1.0" : String) ≠ "a==2.0" :=
  ⟨rfl, by decide, by decide⟩

/-- C4 (amended): the parsed `requirements` value is returned exactly as
the collaborator sent it — in particular no deduplication by dependency
name takes place, so the result is unique by name only when the reply
already is. -/
theorem c4_amended_reply_verbatim :
    ∀ (answer : String) (kvs : List (String × PyJson)) (l : List PyJson),
      jsonLoads (stripReply answer) = some (PyJson.obj kvs) →
      lookupLast "requirements" kvs = some (PyJson.arr l) →
      generate_project_requirements answer = PyJson.arr l := by
  intro answer kvs l h1 h2
  unfold generate_project_requirements parse_requirements_output
  rw [h1]
  simp [h2]

/-- C4 (witness for the amended theorem). -/
theorem c4_witness :
    jsonLoads (stripReply "\x7b\"requirements\": [\"b==1.0\", \"b==1.1\"]\x7d")
        = some (PyJson.obj
            [("requirements",
              PyJson.arr [PyJson.str "b==1.0", PyJson.str "b==1.1"])])
      ∧ lookupLast "requirements"
          [("requirements",
            PyJson.arr [PyJson.str "b==1.0", PyJson.str "b==1.1"])]
        = some (PyJson.arr [PyJson.str "b==1.0", PyJson.str "b==1.1"])
      ∧ generate_project_requirements
          "\x7b\"requirements\": [\"b==1.0\", \"b==1.1\"]\x7d"
        = PyJson.arr [PyJson.str "b==1.0", PyJson.str "b==1.1"] :=
  ⟨rfl, rfl, c4_amended_reply_verbatim _ _ _ rfl rfl⟩

/-- C5 (counterexample): on a missing project root the flat scan does
*not* fail — `os.walk` suppresses the scandir error, so the function
returns an empty list instead of raising `FileNotFoundError`. -/
theorem c5_counterexample :
    find_all_run none "/missing" [] = Except.ok []
      ∧ find_all_run none "/missing" [] ≠ Except.error PyErr.fileNotFoundError :=
  ⟨rfl, fun h => Except.noConfusion h⟩

/-- C5 (amended): on a missing project root `generate_project_structure`
fails with `FileNotFoundError` (from `os.listdir`) which propagates with
no retry, while `find_all_scripts_and_config_files` silently completes
with an empty list (`os.walk` swallows the error). -/
theorem c5_amended_missing_root :
    ∀ (pd : String) (pats : List String),
      generate_project_structure_run none pd pats
          = Except.error PyErr.fileNotFoundError
        ∧ find_all_run none pd pats = Except.ok [] := by
  intro pd pats
  exact ⟨rfl, rfl⟩

/-- C6: for the tree `{ .git/config, src/main.py, src/README,
config/settings.json }` (listed in sorted order, matching the claim's
traversal-order reading) with an empty ignore file and a dot-free project
root, the flat scan returns exactly the `config/settings.json` and
`src/main.py` files, in that order: `.git/config` falls to the
dot-segment rule and `src/README` has no matching extension. -/
theorem c6_scenario_flat_list :
    find_all_scripts_and_config_files "/proj"
        [FSTree.dir ".git" [FSTree.file "config"],
         FSTree.dir "config" [FSTree.file "settings.json"],
         FSTree.dir "src" [FSTree.file "main.py", FSTree.file "README"]]
        (load_ignore_files "")
      = ["/proj/config/settings.json", "/proj/src/main.py"] := by
  decide

/-- C7 (counterexample): a reply that parses as a JSON object carrying a
`requirements` key whose value is *not* the expected array-of-strings
shape is returned as-is, not replaced by the empty list. -/
theorem c7_counterexample :
    parse_requirements_output "\x7b\"requirements\": 5\x7d" = PyJson.int 5
      ∧ PyJson.int 5 ≠ PyJson.arr [] :=
  ⟨rfl, fun h => PyJson.noConfusion h⟩

/-- C7 (amended): whenever the stripped reply does not yield a dict with a
`requirements` key — JSON parse failure (as for `"not json"`), a non-dict
value, or a dict without the key — `parse_requirements_output` returns
the empty list; the function is total (the bare `except` catches every
exception), so `generate_project_requirements` completes with that empty
list.  Only a dict carrying the key escapes this fallback, and then its
value is returned unchecked. -/
theorem c7_amended_fallback_empty :
    ∀ output : String, hasReqKey output = false →
      parse_requirements_output output = PyJson.arr [] := by
  intro output h
  unfold parse_requirements_output
  unfold hasReqKey at h
  rcases hj : jsonLoads (stripReply output) with _ | v
  · rfl
  · rw [hj] at h
    cases v with
    | obj kvs =>
      cases hl : lookupLast "requirements" kvs with
      | none => simp [hl]
      | some v2 =>
        have h' : (lookupLast "requirements" kvs).isSome = false := h
        rw [hl] at h'
        simp at h'
    | null => rfl
    | bool b => rfl
    | int n => rfl
    | float raw => rfl
    | str s => rfl
    | arr elems => rfl

/-- C7 (witness). -/
theorem c7_witness :
    hasReqKey "not json" = false
      ∧ parse_requirements_output "not json" = PyJson.arr [] :=
  ⟨by decide, c7_amended_fallback_empty "not json" (by decide)⟩

/-- C8: when no entry of the output directory is one of the artifact
names (`requirements.txt`, `PROJECT_STRUCTURE.md`,
`SCRIPT_DESCRIPTION.json`, or a name containing `README`) —
in particular when the directory is empty — `generate_readme` writes
nothing and returns normally. -/
theorem c8_no_artifacts_no_readme :
    ∀ (listing : List (String × String)) (answer : String),
      listing.all (fun fc => !(isArtifactName fc.1)) = true →
      generate_readme listing answer = none := by
  intro listing answer h
  unfold generate_readme
  have hg : get_dependency_content listing = [] := by
    unfold get_dependency_content
    by_cases hl : listing = []
    · simp [hl]
    · rw [if_neg hl, List.filterMap_eq_nil_iff]
      intro fc hfc
      have hfa := List.all_eq_true.mp h fc hfc
      rw [Bool.not_eq_eq_eq_not, Bool.not_true] at hfa
      simp [hfa]
  simp [hg]

/-- C8 (witness): an empty output directory produces no README. -/
theorem c8_witness :
    (([] : List (String × String)).all (fun fc => !(isArtifactName fc.1))
        = true)
      ∧ generate_readme [] "a generated readme" = none :=
  ⟨by decide, c8_no_artifacts_no_readme [] "a generated readme" (by decide)⟩

/-- C9: the three checks of `is_ignored` — a dot-initial segment of the
(full) path, a `__pycache__` occurrence in the relative path, and a
pattern match — each independently suffice, the first two for every
pattern list whatsoever. -/
theorem c9_unconditional_ignores :
    (∀ (pd fp : String) (pats : List String),
        hasDotSeg fp = true → is_ignored pd fp pats = true)
      ∧ (∀ (pd fp : String) (pats : List String),
          containsSeg "__pycache__".data (relpath fp pd).data = true →
          is_ignored pd fp pats = true)
      ∧ (∀ (pd fp : String) (pats : List String) (p : String),
          p ∈ pats → fnmatch (relpath fp pd) p = true →
          is_ignored pd fp pats = true) :=
  ⟨ignored_of_dotSeg, ignored_of_pycache, ignored_of_pattern⟩

/-- C9 (witness). -/
theorem c9_witness :
    (hasDotSeg "/p/.hidden/f.py" = true
        ∧ is_ignored "/p" "/p/.hidden/f.py" [] = true)
      ∧ (containsSeg "__pycache__".data
            (relpath "/p/a/__pycache__/m.py" "/p").data = true
          ∧ is_ignored "/p" "/p/a/__pycache__/m.py" [] = true)
      ∧ (("*" ∈ ["*"])
          ∧ fnmatch (relpath "/p/notes.txt" "/p") "*" = true
          ∧ is_ignored "/p" "/p/notes.txt" ["*"] = true) :=
  ⟨⟨by decide,
    c9_unconditional_ignores.1 "/p" "/p/.hidden/f.py" [] (by decide)⟩,
   ⟨by decide,
    c9_unconditional_ignores.2.1 "/p" "/p/a/__pycache__/m.py" [] (by decide)⟩,
   ⟨by decide, by decide,
    c9_unconditional_ignores.2.2 "/p" "/p/notes.txt" ["*"] "*" (by decide)
      (by decide)⟩⟩

/-- C10: the dot-segment test runs on the full absolute path, so a
project directory whose own path contains a dot-initial segment makes
every path ignored: the structural listing and the flat relevant-file
list are empty for every tree and every pattern set. -/
theorem c10_dot_project_dir_everything_ignored :
    ∀ (pd : String) (tree : List FSTree) (pats : List String),
      hasDotSeg pd = true →
      generate_project_structure pd tree pats = []
        ∧ find_all_scripts_and_config_files pd tree pats = [] := by
  intro pd tree pats hdot
  refine ⟨?_, find_all_nil_of_dot pd tree pats hdot⟩
  unfold generate_project_structure
  exact structForest_nil_of_dot pd pats (sortForest tree) pd 0 hdot

/-- C10 (witness). -/
theorem c10_witness :
    hasDotSeg "/home/.user/proj" = true
      ∧ generate_project_structure "/home/.user/proj"
          [FSTree.dir "src" [FSTree.file "a.py"]] [] = []
      ∧ find_all_scripts_and_config_files "/home/.user/proj"
          [FSTree.dir "src" [FSTree.file "a.py"]] [] = [] :=
  ⟨by decide,
   (c10_dot_project_dir_everything_ignored "/home/.user/proj"
      [FSTree.dir "src" [FSTree.file "a.py"]] [] (by decide)).1,
   (c10_dot_project_dir_everything_ignored "/home/.user/proj"
      [FSTree.dir "src" [FSTree.file "a.py"]] [] (by decide)).2⟩
